import Mathlib

/-!
Verification of the Report Synthesis & Structured-Text Rendering subsystem
of the college-visit application.

The TypeScript core lives in the `ReportView` component: `createReport`
(the ReportComposer) builds a markup document from a visit, its photos and
its categorized notes, and the inline renderer (the MarkupRenderer) maps
each line of a stored document to one presentational block element.

JavaScript strings are modelled as `List Char` (named `Str`), following the
usual shallow-embedding style for string-manipulating code.  The JS string
primitives used by the source (`startsWith`, `endsWith`, `includes`,
`split`, `substring`, `trim`-emptiness) are re-implemented below with their
JS semantics; in particular `substring` swaps its two indices when the
first exceeds the second, and `split` performs leftmost non-overlapping
splitting.  Locale-dependent date formatting (`toLocaleDateString`) is
modelled by passing the already-formatted date text as input.
-/

set_option maxHeartbeats 1000000

abbrev Str := List Char

/-- Conversion from a Lean string literal to the `List Char` model. -/
def str (s : String) : Str := s.toList

namespace ReportCore

/-- JS `s.startsWith(p)`: `leadsWith p s` is true iff `p` is a leading
segment of `s`. -/
def leadsWith : Str → Str → Bool
  | [], _ => true
  | _ :: _, [] => false
  | a :: as, b :: bs => a == b && leadsWith as bs

/-- JS `s.endsWith(p)`: true iff `p` is a trailing segment of `s`. -/
def closesWith (p s : Str) : Bool := leadsWith p.reverse s.reverse

/-- JS `s.includes(p)`: true iff `p` occurs as a contiguous segment of
`s`. -/
def occursB (p : Str) : Str → Bool
  | [] => leadsWith p []
  | c :: cs => leadsWith p (c :: cs) || occursB p cs

/-- JS `s.split('\n')`: split on newline characters, keeping empty
fields, with `[""]` for the empty string. -/
def splitNl : Str → List Str
  | [] => [[]]
  | c :: cs =>
    match splitNl cs with
    | [] => [[c]]
    | l :: ls => if c = '\n' then [] :: l :: ls else (c :: l) :: ls

/-- JS `s.split('**')`: leftmost non-overlapping splitting on the
two-character bold delimiter, keeping empty fields. -/
def splitStars : Str → List Str
  | [] => [[]]
  | '*' :: '*' :: cs => [] :: splitStars cs
  | c :: cs =>
    match splitStars cs with
    | [] => [[c]]
    | l :: ls => (c :: l) :: ls

/-- JS `s.substring(a, b)`: both indices are clamped to the length and
swapped when `a > b`. -/
def jsSub (s : Str) (a b : Nat) : Str :=
  let a' := min a s.length
  let b' := min b s.length
  (s.drop (min a' b')).take (max a' b' - min a' b')

/-- JS `s.trim() === ''`: the line consists of whitespace only. -/
def jsTrimEmpty (s : Str) : Bool := s.all (fun c => c.isWhitespace)

/-- The nine presentational block kinds produced by the line renderer in
`ReportView`.  A `mixedParagraph` stores its runs in split order together
with their boldness (`parts.map((part, i) => i % 2 === 0 ? plain : bold)`
in the source). -/
inductive BlockElement where
  | heading1 (text : Str)
  | heading2 (text : Str)
  | heading3 (text : Str)
  | boldParagraph (text : Str)
  | mixedParagraph (runs : List (Str × Bool))
  | listItem (text : Str)
  | rule
  | lineBreak
  | plainParagraph (text : Str)
deriving DecidableEq, Repr

/-- The runs of a mixed paragraph: fields at even split positions are
plain, fields at odd positions are bold. -/
def boldRuns (parts : List Str) : List (Str × Bool) :=
  parts.enum.map (fun p => (p.2, p.1 % 2 == 1))

/-- The per-line classifier of `ReportView`: the ordered if/else chain over
`report_content.split('\n')`, translated branch by branch. -/
def classifyLine (line : Str) : BlockElement :=
  if leadsWith (str "# ") line then .heading1 (line.drop 2)
  else if leadsWith (str "## ") line then .heading2 (line.drop 3)
  else if leadsWith (str "### ") line then .heading3 (line.drop 4)
  else if leadsWith (str "**") line && closesWith (str "**") line then
    .boldParagraph (jsSub line 2 (line.length - 2))
  else if occursB (str "**") line then .mixedParagraph (boldRuns (splitStars line))
  else if leadsWith (str "- ") line then .listItem (line.drop 2)
  else if line == str "---" then .rule
  else if jsTrimEmpty line then .lineBreak
  else .plainParagraph line

/-- The MarkupRenderer: `report_content.split('\n').map(classify)`. -/
def render (text : Str) : List BlockElement := (splitNl text).map classifyLine

/-- The fields of a `Note` read by `createReport` (`category`, `content`);
the identity and timestamp fields are never consulted by the composer. -/
structure Note where
  category : Str
  content : Str
deriving DecidableEq, Repr

/-- The field of a `Photo` read by `createReport` (`caption`, a string:
the JS truthiness test `if (photo.caption)` is emptiness of that string). -/
structure Photo where
  caption : Str
deriving DecidableEq, Repr

/-- The fields of a `Visit` read by `createReport`.  `visit_date` holds the
`toLocaleDateString`-formatted date text (locale formatting is outside the
embedding, so the composer receives the formatted text). -/
structure Visit where
  college_name : Str
  visit_date : Str
  location : Str
deriving DecidableEq, Repr

/-- One step of the `notes.forEach` grouping loop of `createReport`: append
the note to its category's bucket, creating the bucket at the end on first
sight.  JS objects preserve insertion order for the (non-numeric) category
tag keys used by the app, so `notesByCategory` is modelled as an
insertion-ordered association list. -/
def insertNote (g : List (Str × List Note)) (n : Note) : List (Str × List Note) :=
  if (g.find? (fun p => p.1 == n.category)).isSome then
    g.map (fun p => if p.1 == n.category then (p.1, p.2 ++ [n]) else p)
  else g ++ [(n.category, [n])]

/-- The `notesByCategory` mapping built by `createReport`. -/
def groupByCategory (notes : List Note) : List (Str × List Note) :=
  notes.foldl insertNote []

/-- The `categoryTitles` table of `createReport`. -/
def categoryTitles : List (Str × Str) :=
  [(str "academics", str "Academic Programs & Quality"),
   (str "campus", str "Campus Life & Culture"),
   (str "facilities", str "Facilities & Resources"),
   (str "location", str "Location & Surroundings"),
   (str "housing", str "Housing & Accommodation"),
   (str "financial", str "Financial Aid & Costs"),
   (str "social", str "Social Environment"),
   (str "general", str "General Observations")]

/-- `categoryTitles[category] || category`: look the tag up in the title
table, falling back to the raw tag. -/
def categoryTitle (c : Str) : Str :=
  match categoryTitles.find? (fun p => p.1 == c) with
  | some p => p.2
  | none => c

/-- The decimal digit characters, for rendering the counts that JS
template literals interpolate. -/
def digitChar10 (d : Nat) : Char :=
  match d with
  | 0 => '0' | 1 => '1' | 2 => '2' | 3 => '3' | 4 => '4'
  | 5 => '5' | 6 => '6' | 7 => '7' | 8 => '8' | _ => '9'

/-- Decimal digit expansion with structural fuel (the fuel `n + 1` always
suffices, since a number needs no more decimal digits than its size). -/
def natStrCore : Nat → Nat → Str
  | 0, _ => []
  | fuel + 1, n =>
    if n < 10 then [digitChar10 n]
    else natStrCore fuel (n / 10) ++ [digitChar10 (n % 10)]

/-- Decimal rendering of a natural number, as a JS template literal
renders an array length. -/
def natStr (n : Nat) : Str := natStrCore (n + 1) n

/-- The counted-noun phrase `` `${n} noun${n !== 1 ? 's' : ''}` `` used for
the photo and note counts of the Executive Summary and the Visual
Documentation sentence. -/
def countNoun (n : Nat) (noun : Str) : Str :=
  natStr n ++ noun ++ (if n != 1 then str "s" else [])

/-- The Executive Summary paragraph of `createReport`. -/
def execSummary (collegeName : Str) (nPhotos nNotes nCats : Nat) : Str :=
  str "This report documents my visit to " ++ collegeName ++ str ". " ++
  str "During this visit, I took " ++ countNoun nPhotos (str " photo") ++ str " " ++
  str "and recorded " ++ countNoun nNotes (str " detailed note") ++ str " " ++
  str "across " ++ natStr nCats ++ str " different categories.\n\n"

/-- The note paragraphs of one category subsection: each note's content
followed by a blank line. -/
def noteParagraphs (ns : List Note) : Str :=
  (ns.map (fun n => n.content ++ str "\n\n")).flatten

/-- One category subsection of Detailed Observations. -/
def categoryBlock (p : Str × List Note) : Str :=
  str "### " ++ categoryTitle p.1 ++ str "\n\n" ++ noteParagraphs p.2

/-- The Detailed Observations section body. -/
def detailedObs (g : List (Str × List Note)) : Str :=
  str "## Detailed Observations\n\n" ++ (g.map categoryBlock).flatten

/-- The photo bullet lines: `photos.forEach`, emitting a bullet only for a
truthy (non-empty) caption. -/
def photoBullets (photos : List Photo) : Str :=
  (photos.map (fun p => if p.caption != [] then str "- " ++ p.caption ++ str "\n" else [])).flatten

/-- The Visual Documentation section body. -/
def visualDoc (photos : List Photo) : Str :=
  str "## Visual Documentation\n\n" ++
  str "I captured " ++ countNoun photos.length (str " photo") ++
  str " during my visit, documenting various aspects of the campus including:\n\n" ++
  photoBullets photos ++ str "\n"

/-- `if (notesByCategory['c'])`: the category has a bucket in the
grouping. -/
def hasCategory (g : List (Str × List Note)) (c : Str) : Bool :=
  (g.find? (fun p => p.1 == c)).isSome

/-- The `keyPoints` list of `createReport`: seven fixed category checks in
source order, each pushing its fixed sentence when the category has a
bucket.  The `general` tag has no check and contributes nothing. -/
def keyPoints (g : List (Str × List Note)) : List Str :=
  (if hasCategory g (str "academics") then
    [str "Academic programs and educational opportunities were evaluated"] else []) ++
  (if hasCategory g (str "campus") then
    [str "Campus culture and student life were observed"] else []) ++
  (if hasCategory g (str "facilities") then
    [str "Campus facilities and resources were examined"] else []) ++
  (if hasCategory g (str "location") then
    [str "Location and surrounding area were assessed"] else []) ++
  (if hasCategory g (str "housing") then
    [str "Housing options and living arrangements were reviewed"] else []) ++
  (if hasCategory g (str "financial") then
    [str "Financial considerations and aid opportunities were discussed"] else []) ++
  (if hasCategory g (str "social") then
    [str "Social environment and community aspects were evaluated"] else [])

/-- The fixed fallback sentence of Key Takeaways for a visit with zero
notes. -/
def noNotesFallback : Str :=
  str "While I didn\x27t record specific notes during this visit, the experience and photos provide valuable documentation for future reference.\n\n"

/-- The Key Takeaways section: fallback sentence when there are zero
notes, otherwise the introduction followed by one bullet per key point. -/
def keyTakeaways (g : List (Str × List Note)) (nNotes : Nat) : Str :=
  str "## Key Takeaways\n\n" ++
  (if nNotes = 0 then noNotesFallback
   else
     str "Based on my observations and notes, here are the main points to consider:\n\n" ++
     ((keyPoints g).map (fun p => str "- " ++ p ++ str "\n")).flatten ++ str "\n")

/-- The fixed Next Steps checklist. -/
def nextSteps : Str :=
  str "## Next Steps\n\n" ++
  str "- Review this report alongside other college visit reports\n" ++
  str "- Compare academic programs, campus culture, and overall fit\n" ++
  str "- Consider revisiting if needed for deeper exploration\n" ++
  str "- Discuss findings with family, counselors, and mentors\n" ++
  str "- Make informed decisions about college applications\n\n"

/-- The Detailed Observations slot of the document:
`if (Object.keys(notesByCategory).length > 0)`. -/
def detailedSlot (g : List (Str × List Note)) : Str :=
  if g.length > 0 then detailedObs g else []

/-- The Visual Documentation slot of the document:
`if (photos.length > 0)`. -/
def visualSlot (photos : List Photo) : Str :=
  if photos.length > 0 then visualDoc photos else []

/-- The ReportComposer `createReport(visit, photos, notes)`, translated
section append by section append.  `genDate` is the
`toLocaleDateString`-formatted generation date of the footer. -/
def compose (v : Visit) (photos : List Photo) (notes : List Note) (genDate : Str) : Str :=
  let g := groupByCategory notes
  str "# College Visit Report: " ++ v.college_name ++ str "\n\n" ++
  str "**Visit Date:** " ++ v.visit_date ++ str "\n\n" ++
  (if v.location != [] then str "**Location:** " ++ v.location ++ str "\n\n" else []) ++
  str "---\n\n" ++
  str "## Executive Summary\n\n" ++
  execSummary v.college_name photos.length notes.length g.length ++
  detailedSlot g ++
  visualSlot photos ++
  keyTakeaways g notes.length ++
  nextSteps ++
  str "---\n\n" ++
  str "*Report generated on " ++ genDate ++ str "*\n"

/-! ### Specification-side definitions

The definitions below restate, on the specification's side, what the
document is expected to look like; the theorems compare them with the
source-derived definitions above. -/

/-- The category tags in order of first occurrence among the input notes
(the documented subsection order of the grouping). -/
def firstSeen (notes : List Note) : List Str :=
  notes.foldl (fun acc n => if acc.contains n.category then acc else acc ++ [n.category]) []

/-- The eight valid category tags of the app's taxonomy (the `CATEGORIES`
table of `NotesList`, also the note-editor's closed choice list). -/
def validCategories : List Str :=
  [str "academics", str "campus", str "facilities", str "location",
   str "housing", str "financial", str "social", str "general"]

/-- The seven (category, sentence) pairs of the Key Takeaways checks of
`createReport`, in source order.  Note `general` has no entry. -/
def keyPointTable : List (Str × Str) :=
  [(str "academics", str "Academic programs and educational opportunities were evaluated"),
   (str "campus", str "Campus culture and student life were observed"),
   (str "facilities", str "Campus facilities and resources were examined"),
   (str "location", str "Location and surrounding area were assessed"),
   (str "housing", str "Housing options and living arrangements were reviewed"),
   (str "financial", str "Financial considerations and aid opportunities were discussed"),
   (str "social", str "Social environment and community aspects were evaluated")]

/-- Rebuild a text from its lines, each line followed by one newline. -/
def joinLines (L : List Str) : Str := (L.map (fun l => l ++ ['\n'])).flatten

/-- The Executive Summary paragraph as a single line (no terminator). -/
def execSummaryLine (collegeName : Str) (nPhotos nNotes nCats : Nat) : Str :=
  str "This report documents my visit to " ++ collegeName ++ str ". " ++
  str "During this visit, I took " ++ countNoun nPhotos (str " photo") ++ str " " ++
  str "and recorded " ++ countNoun nNotes (str " detailed note") ++ str " " ++
  str "across " ++ natStr nCats ++ str " different categories."

/-- The lines of one category subsection: heading, blank, then each note's
content as one line followed by a blank line. -/
def categoryBlockLines (p : Str × List Note) : List Str :=
  [str "### " ++ categoryTitle p.1, []] ++ (p.2.map (fun n => [n.content, []])).flatten

/-- The lines of the Detailed Observations section. -/
def detailedLines (g : List (Str × List Note)) : List Str :=
  [str "## Detailed Observations", []] ++ (g.map categoryBlockLines).flatten

/-- The Visual Documentation summary sentence as a single line. -/
def capturedLine (nPhotos : Nat) : Str :=
  str "I captured " ++ countNoun nPhotos (str " photo") ++
  str " during my visit, documenting various aspects of the campus including:"

/-- The photo bullet lines, one per photo with a non-empty caption. -/
def photoBulletLines (photos : List Photo) : List Str :=
  (photos.map (fun p => if p.caption != [] then [str "- " ++ p.caption] else [])).flatten

/-- The lines of the Visual Documentation section. -/
def visualLines (photos : List Photo) : List Str :=
  [str "## Visual Documentation", [], capturedLine photos.length, []] ++
  photoBulletLines photos ++ [[]]

/-- The zero-notes fallback sentence as a single line. -/
def fallbackLine : Str :=
  str "While I didn\x27t record specific notes during this visit, the experience and photos provide valuable documentation for future reference."

/-- The lines of the Key Takeaways section. -/
def keyTakeawaysLines (g : List (Str × List Note)) (nNotes : Nat) : List Str :=
  [str "## Key Takeaways", []] ++
  (if nNotes = 0 then [fallbackLine, []]
   else
     [str "Based on my observations and notes, here are the main points to consider:", []] ++
     (keyPoints g).map (fun p => str "- " ++ p) ++ [[]])

/-- The lines of the Next Steps section. -/
def nextStepsLines : List Str :=
  [str "## Next Steps", [],
   str "- Review this report alongside other college visit reports",
   str "- Compare academic programs, campus culture, and overall fit",
   str "- Consider revisiting if needed for deeper exploration",
   str "- Discuss findings with family, counselors, and mentors",
   str "- Make informed decisions about college applications", []]

/-- The line-by-line decomposition of the composed document: every logical
unit (title, metadata line, note paragraph, bullet) is one element, and
blank separator lines are `[]` elements. -/
def composeLines (v : Visit) (photos : List Photo) (notes : List Note) (genDate : Str) : List Str :=
  let g := groupByCategory notes
  [str "# College Visit Report: " ++ v.college_name, [],
   str "**Visit Date:** " ++ v.visit_date, []] ++
  (if v.location != [] then [str "**Location:** " ++ v.location, []] else []) ++
  [str "---", [], str "## Executive Summary", [],
   execSummaryLine v.college_name photos.length notes.length g.length, []] ++
  (if g.length > 0 then detailedLines g else []) ++
  (if photos.length > 0 then visualLines photos else []) ++
  keyTakeawaysLines g notes.length ++
  nextStepsLines ++
  [str "---", [], str "*Report generated on " ++ genDate ++ str "*"]

/-! ### Lemmas about the string primitives -/

theorem leadsWith_iff (p s : Str) : leadsWith p s = true ↔ ∃ t, s = p ++ t := by
  induction p generalizing s with
  | nil => simp [leadsWith]
  | cons a as ih =>
    cases s with
    | nil => simp [leadsWith]
    | cons b bs =>
      simp only [leadsWith, Bool.and_eq_true, beq_iff_eq, ih]
      constructor
      · rintro ⟨rfl, t, rfl⟩
        exact ⟨t, rfl⟩
      · rintro ⟨t, h⟩
        injection h with h1 h2
        exact ⟨h1.symm, t, h2⟩

theorem occursB_of_leadsWith {p s : Str} (h : leadsWith p s = true) : occursB p s = true := by
  cases s with
  | nil => exact h
  | cons c cs => simp [occursB, h]

theorem occursB_append_right {p s : Str} (t : Str) (h : occursB p s = true) :
    occursB p (s ++ t) = true := by
  induction s with
  | nil =>
    have hp : p = [] := by
      rcases (leadsWith_iff p []).mp h with ⟨u, hu⟩
      have h2 := hu.symm
      simp only [List.append_eq_nil] at h2
      exact h2.1
    subst hp
    exact occursB_of_leadsWith ((leadsWith_iff [] t).mpr ⟨t, rfl⟩)
  | cons c cs ih =>
    simp only [occursB, Bool.or_eq_true] at h ⊢
    rcases h with h | h
    · left
      rcases (leadsWith_iff p (c :: cs)).mp h with ⟨u, hu⟩
      refine (leadsWith_iff p (c :: cs ++ t)).mpr ⟨u ++ t, ?_⟩
      rw [← List.append_assoc, ← hu]
    · right
      exact ih h

theorem occursB_append_left {p s : Str} (t : Str) (h : occursB p s = true) :
    occursB p (t ++ s) = true := by
  induction t with
  | nil => simpa using h
  | cons c cs ih =>
    simp only [List.cons_append, occursB, Bool.or_eq_true]
    right
    exact ih

theorem occursB_embed (p a b : Str) : occursB p (a ++ (p ++ b)) = true :=
  occursB_append_left a (occursB_of_leadsWith ((leadsWith_iff p (p ++ b)).mpr ⟨b, rfl⟩))

theorem splitNl_ne_nil (s : Str) : splitNl s ≠ [] := by
  induction s with
  | nil => simp [splitNl]
  | cons c cs ih =>
    cases h : splitNl cs with
    | nil => exact absurd h ih
    | cons l ls =>
      simp only [splitNl, h]
      split <;> simp

theorem splitNl_append_nl (a b : Str) (h : '\n' ∉ a) :
    splitNl (a ++ '\n' :: b) = a :: splitNl b := by
  induction a with
  | nil =>
    cases hb : splitNl b with
    | nil => exact absurd hb (splitNl_ne_nil b)
    | cons l ls => simp [splitNl, hb]
  | cons c cs ih =>
    have hc : c ≠ '\n' := fun hc => h (by simp [hc])
    have hcs : '\n' ∉ cs := fun hm => h (by simp [hm])
    show splitNl (c :: (cs ++ '\n' :: b)) = (c :: cs) :: splitNl b
    rw [splitNl, ih hcs]
    simp [hc]

theorem joinLines_nil : joinLines [] = [] := rfl

theorem joinLines_cons (l : Str) (L : List Str) :
    joinLines (l :: L) = l ++ '\n' :: joinLines L := by
  simp [joinLines]

theorem joinLines_append (A B : List Str) :
    joinLines (A ++ B) = joinLines A ++ joinLines B := by
  simp [joinLines]

theorem joinLines_flatten (L : List (List Str)) :
    joinLines L.flatten = (L.map joinLines).flatten := by
  induction L with
  | nil => rfl
  | cons l ls ih => simp [joinLines_append, ih]

theorem splitNl_joinLines (L : List Str) (h : ∀ l ∈ L, '\n' ∉ l) :
    splitNl (joinLines L) = L ++ [[]] := by
  induction L with
  | nil => rfl
  | cons l ls ih =>
    rw [joinLines_cons, splitNl_append_nl l _ (h l (by simp)),
      ih (fun x hx => h x (by simp [hx])), List.cons_append]

/-! ### Lemmas about the category grouping -/

theorem contains_iff_mem (l : List Str) (c : Str) : l.contains c = true ↔ c ∈ l := by
  simp [List.contains, List.elem_iff]

theorem firstSeen_snoc (ns : List Note) (n : Note) :
    firstSeen (ns ++ [n]) =
      if (firstSeen ns).contains n.category then firstSeen ns
      else firstSeen ns ++ [n.category] := by
  simp [firstSeen, List.foldl_append]

theorem groupByCategory_snoc (ns : List Note) (n : Note) :
    groupByCategory (ns ++ [n]) = insertNote (groupByCategory ns) n := by
  simp [groupByCategory, List.foldl_append]

theorem mem_firstSeen (c : Str) (ns : List Note) :
    c ∈ firstSeen ns ↔ ∃ n ∈ ns, n.category = c := by
  induction ns using List.reverseRecOn with
  | nil => simp [firstSeen]
  | append_singleton ns n ih =>
    rw [firstSeen_snoc]
    cases hc : (firstSeen ns).contains n.category with
    | true =>
      have hmem : n.category ∈ firstSeen ns := (contains_iff_mem _ _).mp hc
      simp only [if_true]
      rw [ih]
      constructor
      · rintro ⟨m, hm, hmc⟩
        exact ⟨m, by simp [hm], hmc⟩
      · rintro ⟨m, hm, hmc⟩
        rcases (by simpa using hm : m ∈ ns ∨ m = n) with hm2 | rfl
        · exact ⟨m, hm2, hmc⟩
        · rw [hmc] at hmem
          exact ih.mp hmem
    | false =>
      simp only [Bool.false_eq_true, if_false]
      simp only [List.mem_append, List.mem_singleton, ih]
      constructor
      · rintro (⟨m, hm, hmc⟩ | rfl)
        · exact ⟨m, by simp [hm], hmc⟩
        · exact ⟨n, by simp, rfl⟩
      · rintro ⟨m, hm, hmc⟩
        rcases (by simpa using hm : m ∈ ns ∨ m = n) with hm2 | rfl
        · exact Or.inl ⟨m, hm2, hmc⟩
        · exact Or.inr hmc.symm

theorem groupByCategory_eq (ns : List Note) :
    groupByCategory ns =
      (firstSeen ns).map (fun c => (c, ns.filter (fun m => m.category == c))) := by
  induction ns using List.reverseRecOn with
  | nil => rfl
  | append_singleton ns n ih =>
    rw [groupByCategory_snoc, ih, firstSeen_snoc]
    cases hc : (firstSeen ns).contains n.category with
    | true =>
      have hmem : n.category ∈ firstSeen ns := (contains_iff_mem _ _).mp hc
      simp only [if_true]
      simp only [insertNote]
      have hfind :
          (((firstSeen ns).map
              (fun c => (c, ns.filter (fun m => m.category == c)))).find?
            (fun p => p.1 == n.category)).isSome = true := by
        rw [List.find?_isSome]
        exact ⟨(n.category, ns.filter (fun m => m.category == n.category)),
          List.mem_map_of_mem _ hmem, by simp⟩
      rw [if_pos hfind, List.map_map]
      apply List.map_congr_left
      intro c hcmem
      simp only [Function.comp_apply]
      by_cases hce : c = n.category
      · subst hce
        simp [List.filter_append, List.filter_cons]
      · have h1 : (c == n.category) = false := by simp [hce]
        have h2 : (n.category == c) = false := by
          simp only [beq_eq_false_iff_ne, ne_eq]
          intro h
          exact hce h.symm
        simp [h1, h2, List.filter_append, List.filter_cons]
    | false =>
      have hmem : n.category ∉ firstSeen ns := by
        intro h
        rw [← contains_iff_mem] at h
        rw [h] at hc
        cases hc
      simp only [Bool.false_eq_true, if_false]
      simp only [insertNote]
      have hfind :
          ((firstSeen ns).map
              (fun c => (c, ns.filter (fun m => m.category == c)))).find?
            (fun p => p.1 == n.category) = none := by
        rw [List.find?_eq_none]
        rintro x hx
        rcases List.mem_map.mp hx with ⟨c, hcmem, rfl⟩
        simp only [beq_iff_eq]
        intro hce
        exact hmem (hce ▸ hcmem)
      rw [if_neg (by simp [hfind]), List.map_append]
      congr 1
      · apply List.map_congr_left
        intro c hcmem
        have h2 : (n.category == c) = false := by
          simp only [beq_eq_false_iff_ne, ne_eq]
          intro h
          exact hmem (h ▸ hcmem)
        simp [List.filter_append, List.filter_cons, h2]
      · have hnil : ns.filter (fun m => m.category == n.category) = [] := by
          rw [List.filter_eq_nil_iff]
          intro m hm
          simp only [beq_iff_eq]
          intro hmc
          exact hmem ((mem_firstSeen _ _).mpr ⟨m, hm, hmc⟩)
        simp [List.filter_append, List.filter_cons, hnil]

/-! ### The composed document, line by line -/

theorem strNN : str "\n\n" = ['\n', '\n'] := rfl

theorem strN : str "\n" = ['\n'] := rfl

theorem lit_rule : str "---\n\n" = str "---" ++ ['\n', '\n'] := rfl

theorem lit_execHdr : str "## Executive Summary\n\n" = str "## Executive Summary" ++ ['\n', '\n'] := rfl

theorem lit_detHdr : str "## Detailed Observations\n\n" = str "## Detailed Observations" ++ ['\n', '\n'] := rfl

theorem lit_visHdr : str "## Visual Documentation\n\n" = str "## Visual Documentation" ++ ['\n', '\n'] := rfl

theorem lit_ktHdr : str "## Key Takeaways\n\n" = str "## Key Takeaways" ++ ['\n', '\n'] := rfl

theorem lit_cats : str " different categories.\n\n" = str " different categories." ++ ['\n', '\n'] := rfl

theorem lit_capt : str " during my visit, documenting various aspects of the campus including:\n\n" = str " during my visit, documenting various aspects of the campus including:" ++ ['\n', '\n'] := rfl

theorem lit_fallback : noNotesFallback = fallbackLine ++ ['\n', '\n'] := rfl

theorem lit_intro : str "Based on my observations and notes, here are the main points to consider:\n\n" = str "Based on my observations and notes, here are the main points to consider:" ++ ['\n', '\n'] := rfl

theorem lit_footer : str "*\n" = str "*" ++ ['\n'] := rfl

theorem joinLines_map {α : Type} (f : α → Str) (L : List α) :
    joinLines (L.map f) = (L.map (fun x => f x ++ ['\n'])).flatten := by
  simp [joinLines, List.map_map, Function.comp_def]

theorem execSummary_lines (name : Str) (a b c : Nat) :
    execSummary name a b c = execSummaryLine name a b c ++ ['\n', '\n'] := by
  simp [execSummary, execSummaryLine, lit_cats, List.append_assoc]

theorem noteParagraphs_lines (ns : List Note) :
    noteParagraphs ns = joinLines ((ns.map (fun n => [n.content, []])).flatten) := by
  induction ns with
  | nil => rfl
  | cons n ns ih =>
    simp only [noteParagraphs, List.map_cons, List.flatten_cons] at *
    rw [joinLines_append, ← ih, joinLines_cons, joinLines_cons, joinLines_nil]
    simp [strNN]

theorem categoryBlock_lines (p : Str × List Note) :
    categoryBlock p = joinLines (categoryBlockLines p) := by
  rw [categoryBlock, categoryBlockLines, joinLines_append, joinLines_cons, joinLines_cons,
    joinLines_nil, ← noteParagraphs_lines]
  simp [strNN]

theorem detailedObs_lines (g : List (Str × List Note)) :
    detailedObs g = joinLines (detailedLines g) := by
  rw [detailedObs, detailedLines, joinLines_append, joinLines_cons, joinLines_cons,
    joinLines_nil, joinLines_flatten, List.map_map]
  have hmap : List.map categoryBlock g = List.map (joinLines ∘ categoryBlockLines) g :=
    List.map_congr_left (fun p _ => categoryBlock_lines p)
  rw [hmap]
  simp [lit_detHdr, Function.comp_def, List.append_assoc]

theorem photoBullets_lines (photos : List Photo) :
    photoBullets photos = joinLines (photoBulletLines photos) := by
  induction photos with
  | nil => rfl
  | cons p ps ih =>
    simp only [photoBullets, photoBulletLines, List.map_cons, List.flatten_cons] at *
    rw [joinLines_append, ← ih]
    by_cases hc : p.caption != []
    · rw [if_pos hc, if_pos hc, joinLines_cons, joinLines_nil]
      simp [strN]
    · rw [if_neg hc, if_neg hc, joinLines_nil]

theorem visualDoc_lines (photos : List Photo) :
    visualDoc photos = joinLines (visualLines photos) := by
  rw [visualDoc, visualLines]
  simp only [joinLines_append, joinLines_cons, joinLines_nil]
  rw [← photoBullets_lines]
  simp [lit_visHdr, lit_capt, capturedLine, strN, List.append_assoc]

theorem keyTakeaways_lines (g : List (Str × List Note)) (k : Nat) :
    keyTakeaways g k = joinLines (keyTakeawaysLines g k) := by
  rw [keyTakeaways, keyTakeawaysLines]
  by_cases hk : k = 0
  · rw [if_pos hk, if_pos hk]
    simp only [joinLines_append, joinLines_cons, joinLines_nil]
    simp [lit_ktHdr, lit_fallback]
  · rw [if_neg hk, if_neg hk]
    simp only [joinLines_append, joinLines_cons, joinLines_nil, joinLines_map]
    simp [lit_ktHdr, lit_intro, strN, List.append_assoc]

set_option maxRecDepth 8000 in
theorem nextSteps_lines : nextSteps = joinLines nextStepsLines := by decide

theorem compose_eq_joinLines (v : Visit) (photos : List Photo) (notes : List Note) (gen : Str) :
    compose v photos notes gen = joinLines (composeLines v photos notes gen) := by
  simp only [compose, composeLines]
  simp only [joinLines_append, joinLines_cons, joinLines_nil]
  rw [← nextSteps_lines, ← keyTakeaways_lines]
  rw [detailedSlot, visualSlot, apply_ite joinLines, apply_ite joinLines,
    apply_ite joinLines, ← detailedObs_lines, ← visualDoc_lines, joinLines_nil]
  rw [execSummary_lines]
  simp [strNN, lit_rule, lit_execHdr, lit_footer, joinLines_cons, joinLines_nil,
    List.append_assoc]

/-! ### Newline-freedom of the document lines -/

theorem no_nl_append {a b : Str} (ha : '\n' ∉ a) (hb : '\n' ∉ b) : '\n' ∉ a ++ b := by
  simp only [List.mem_append]
  rintro (h | h)
  · exact ha h
  · exact hb h

theorem digitChar10_ne_nl (d : Nat) : digitChar10 d ≠ '\n' := by
  rcases d with _ | _ | _ | _ | _ | _ | _ | _ | _ | d
  case succ.succ.succ.succ.succ.succ.succ.succ.succ =>
    show '9' ≠ '\n'
    decide
  all_goals decide

theorem natStrCore_no_nl (fuel n : Nat) : '\n' ∉ natStrCore fuel n := by
  induction fuel generalizing n with
  | zero => simp [natStrCore]
  | succ f ih =>
    rw [natStrCore]
    split
    · intro h
      simp only [List.mem_singleton] at h
      exact digitChar10_ne_nl n h.symm
    · intro h
      rcases List.mem_append.mp h with h2 | h2
      · exact ih (n / 10) h2
      · simp only [List.mem_singleton] at h2
        exact digitChar10_ne_nl (n % 10) h2.symm

theorem natStr_no_nl (n : Nat) : '\n' ∉ natStr n := natStrCore_no_nl (n + 1) n

theorem countNoun_no_nl {noun : Str} (h : '\n' ∉ noun) (n : Nat) :
    '\n' ∉ countNoun n noun := by
  rw [countNoun]
  refine no_nl_append (no_nl_append (natStr_no_nl n) h) ?_
  split
  · decide
  · simp

theorem categoryTitle_no_nl {c : Str} (hc : '\n' ∉ c) : '\n' ∉ categoryTitle c := by
  cases h : categoryTitles.find? (fun p => p.1 == c) with
  | none =>
    rw [categoryTitle, h]
    exact hc
  | some p =>
    rw [categoryTitle, h]
    show '\n' ∉ p.2
    have hp := List.mem_of_find?_eq_some h
    simp only [categoryTitles, List.mem_cons, List.not_mem_nil, or_false] at hp
    rcases hp with rfl | rfl | rfl | rfl | rfl | rfl | rfl | rfl <;> decide

theorem execSummaryLine_no_nl {name : Str} (hname : '\n' ∉ name) (a b c : Nat) :
    '\n' ∉ execSummaryLine name a b c := by
  intro hmem
  simp only [execSummaryLine, countNoun, List.append_assoc, List.mem_append] at hmem
  rcases hmem with h | h | h | h | h | h | h | h | h | h | h | h | h | h | h | h <;>
    first
    | exact hname h
    | exact natStr_no_nl a h
    | exact natStr_no_nl b h
    | exact natStr_no_nl c h
    | exact absurd h (by decide)
    | (split at h
       · exact absurd h (by decide)
       · exact absurd h (List.not_mem_nil _))

theorem keyPoints_no_nl (g : List (Str × List Note)) :
    ∀ q ∈ keyPoints g, '\n' ∉ q := by
  intro q hq
  simp only [keyPoints, List.mem_append] at hq
  rcases hq with ((((((h | h) | h) | h) | h) | h) | h) <;>
    (split at h
     · simp only [List.mem_singleton] at h
       subst h
       decide
     · exact absurd h (List.not_mem_nil q))

theorem detailedLines_no_nl (ns : List Note)
    (hcat : ∀ n ∈ ns, '\n' ∉ n.category)
    (hcont : ∀ n ∈ ns, '\n' ∉ n.content) :
    ∀ l ∈ detailedLines (groupByCategory ns), '\n' ∉ l := by
  intro l hl
  rw [detailedLines, groupByCategory_eq] at hl
  simp only [List.mem_append, List.mem_cons, List.not_mem_nil, or_false,
    List.mem_flatten, List.mem_map] at hl
  rcases hl with (rfl | rfl) | ⟨lines, ⟨p, ⟨c, hcmem, rfl⟩, rfl⟩, hlmem⟩
  · decide
  · simp
  · rw [categoryBlockLines] at hlmem
    simp only [List.mem_append, List.mem_cons, List.not_mem_nil, or_false,
      List.mem_flatten, List.mem_map] at hlmem
    rcases hlmem with (rfl | rfl) | ⟨lines2, ⟨n, hnmem, rfl⟩, hl2⟩
    · rcases (mem_firstSeen c ns).mp hcmem with ⟨n, hn, rfl⟩
      exact no_nl_append (by decide) (categoryTitle_no_nl (hcat n hn))
    · simp
    · have hn2 : n ∈ ns := (List.mem_filter.mp hnmem).1
      simp only [List.mem_cons, List.not_mem_nil, or_false] at hl2
      rcases hl2 with rfl | rfl
      · exact hcont n hn2
      · simp

theorem visualLines_no_nl (photos : List Photo)
    (hphotos : ∀ p ∈ photos, '\n' ∉ p.caption) :
    ∀ l ∈ visualLines photos, '\n' ∉ l := by
  intro l hl
  simp only [visualLines, photoBulletLines, List.mem_append, List.mem_cons,
    List.not_mem_nil, or_false, List.mem_flatten, List.mem_map] at hl
  rcases hl with ((rfl | rfl | rfl | rfl) | ⟨lines, ⟨p, hpmem, rfl⟩, hl2⟩) | rfl
  · decide
  · simp
  · rw [capturedLine]
    exact no_nl_append
      (no_nl_append (by decide) (countNoun_no_nl (by decide) photos.length)) (by decide)
  · simp
  · split at hl2
    · simp only [List.mem_singleton] at hl2
      subst hl2
      exact no_nl_append (by decide) (hphotos p hpmem)
    · exact absurd hl2 (List.not_mem_nil l)
  · simp

theorem keyTakeawaysLines_no_nl (g : List (Str × List Note)) (k : Nat) :
    ∀ l ∈ keyTakeawaysLines g k, '\n' ∉ l := by
  intro l hl
  simp only [keyTakeawaysLines, List.mem_append, List.mem_cons, List.not_mem_nil,
    or_false] at hl
  rcases hl with (rfl | rfl) | hl
  · decide
  · simp
  · split at hl
    · simp only [List.mem_cons, List.not_mem_nil, or_false] at hl
      rcases hl with rfl | rfl
      · decide
      · simp
    · simp only [List.mem_append, List.mem_cons, List.not_mem_nil, or_false,
        List.mem_map] at hl
      rcases hl with ((rfl | rfl) | ⟨q, hq, rfl⟩) | rfl
      · decide
      · simp
      · exact no_nl_append (by decide) (keyPoints_no_nl g q hq)
      · simp

theorem composeLines_no_nl (v : Visit) (photos : List Photo) (notes : List Note)
    (gen : Str)
    (hname : '\n' ∉ v.college_name) (hdate : '\n' ∉ v.visit_date)
    (hloc : '\n' ∉ v.location) (hgen : '\n' ∉ gen)
    (hcat : ∀ n ∈ notes, '\n' ∉ n.category)
    (hcont : ∀ n ∈ notes, '\n' ∉ n.content)
    (hphotos : ∀ p ∈ photos, '\n' ∉ p.caption) :
    ∀ l ∈ composeLines v photos notes gen, '\n' ∉ l := by
  intro l hl
  simp only [composeLines, List.mem_append, List.mem_cons, List.not_mem_nil,
    or_false] at hl
  rcases hl with ((((((hl | hl) | hl) | hl) | hl) | hl) | hl) | hl
  · rcases hl with rfl | rfl | rfl | rfl
    · exact no_nl_append (by decide) hname
    · simp
    · exact no_nl_append (by decide) hdate
    · simp
  · split at hl
    · simp only [List.mem_cons, List.not_mem_nil, or_false] at hl
      rcases hl with rfl | rfl
      · exact no_nl_append (by decide) hloc
      · simp
    · exact absurd hl (List.not_mem_nil l)
  · rcases hl with rfl | rfl | rfl | rfl | rfl | rfl
    · decide
    · simp
    · decide
    · simp
    · exact execSummaryLine_no_nl hname _ _ _
    · simp
  · split at hl
    · exact detailedLines_no_nl notes hcat hcont l hl
    · exact absurd hl (List.not_mem_nil l)
  · split at hl
    · exact visualLines_no_nl photos hphotos l hl
    · exact absurd hl (List.not_mem_nil l)
  · exact keyTakeawaysLines_no_nl _ _ l hl
  · rcases (by simpa [nextStepsLines] using hl : l = str "## Next Steps" ∨ l = [] ∨
      l = str "- Review this report alongside other college visit reports" ∨
      l = str "- Compare academic programs, campus culture, and overall fit" ∨
      l = str "- Consider revisiting if needed for deeper exploration" ∨
      l = str "- Discuss findings with family, counselors, and mentors" ∨
      l = str "- Make informed decisions about college applications" ∨ l = []) with
      rfl | rfl | rfl | rfl | rfl | rfl | rfl | rfl <;> decide
  · rcases hl with rfl | rfl | rfl
    · decide
    · simp
    · exact no_nl_append (no_nl_append (by decide) hgen) (by decide)

theorem splitNl_compose (v : Visit) (photos : List Photo) (notes : List Note)
    (gen : Str)
    (hname : '\n' ∉ v.college_name) (hdate : '\n' ∉ v.visit_date)
    (hloc : '\n' ∉ v.location) (hgen : '\n' ∉ gen)
    (hcat : ∀ n ∈ notes, '\n' ∉ n.category)
    (hcont : ∀ n ∈ notes, '\n' ∉ n.content)
    (hphotos : ∀ p ∈ photos, '\n' ∉ p.caption) :
    splitNl (compose v photos notes gen) = composeLines v photos notes gen ++ [[]] := by
  rw [compose_eq_joinLines]
  exact splitNl_joinLines _
    (composeLines_no_nl v photos notes gen hname hdate hloc hgen hcat hcont hphotos)

/-- For a line of length at least 4, the renderer's `substring(2, len - 2)`
really strips one delimiter from each end. -/
theorem jsSub_strip {s : Str} (h4 : 4 ≤ s.length) :
    jsSub s 2 (s.length - 2) = (s.drop 2).take (s.length - 4) := by
  simp only [jsSub]
  have h1 : min 2 s.length = 2 := by omega
  have h2 : min (s.length - 2) s.length = s.length - 2 := by omega
  rw [h1, h2]
  have h3 : min 2 (s.length - 2) = 2 := by omega
  have h4' : max 2 (s.length - 2) = s.length - 2 := by omega
  have h5 : s.length - 2 - 2 = s.length - 4 := by omega
  rw [h3, h4', h5]

/-! ### Claim theorems -/

/-- C4: `render` is total and line-preserving: it maps every line of any
input text to exactly one `BlockElement`, so the length of the produced
element sequence equals the number of lines of the input; in particular
this holds for every document produced by `compose`. -/
theorem C4_render_total_line_preserving :
    (∀ text : Str, (render text).length = (splitNl text).length) ∧
    (∀ (v : Visit) (photos : List Photo) (notes : List Note) (gen : Str),
      (render (compose v photos notes gen)).length =
        (splitNl (compose v photos notes gen)).length) := by
  constructor
  · intro text
    simp [render]
  · intro v photos notes gen
    simp [render]

/-- C10 (counterexample): the claim states the line `"**"` is classified
as a BoldParagraph whose text is the empty string; in fact JS
`substring(2, 0)` swaps its out-of-order indices, so the text is `"**"`
itself. -/
theorem C10_counterexample :
    classifyLine (str "**") ≠ BlockElement.boldParagraph (str "") := by
  decide

/-- C10 (amended): the renderer's BoldParagraph test does not require the
opening and closing delimiters to be distinct: `"**"` is classified as a
BoldParagraph whose text is `"**"` (JS `substring` swaps its indices when
the start exceeds the end), and `"***"` as a BoldParagraph whose text is
`"*"` — in neither case a MixedParagraph or PlainParagraph. -/
theorem C10_degenerate_bold :
    classifyLine (str "**") = BlockElement.boldParagraph (str "**") ∧
    classifyLine (str "***") = BlockElement.boldParagraph (str "*") := by
  decide

/-- C6: renderer line-classification precedence.  `"**bold**"` is a
BoldParagraph (not a MixedParagraph) and `"a **b** c"` is a MixedParagraph
with runs plain `"a "`, bold `"b"`, plain `" c"`; in general a
delimiter-wrapped line (length at least 4, so the two delimiters are
distinct) is a BoldParagraph with the delimiters stripped, and the runs of
a MixedParagraph are the fields of the split in original order, plain at
even positions and bold at odd positions. -/
theorem C6_classification_precedence :
    classifyLine (str "**bold**") = BlockElement.boldParagraph (str "bold") ∧
    classifyLine (str "a **b** c") =
      BlockElement.mixedParagraph
        [(str "a ", false), (str "b", true), (str " c", false)] ∧
    (∀ line : Str, leadsWith (str "**") line = true →
      closesWith (str "**") line = true → 4 ≤ line.length →
      classifyLine line =
        BlockElement.boldParagraph ((line.drop 2).take (line.length - 4))) ∧
    (∀ (parts : List Str) (i : Nat),
      (boldRuns parts)[i]? = (parts[i]?).map (fun s => (s, i % 2 == 1))) := by
  refine ⟨by decide, by decide, ?_, ?_⟩
  · intro line h1 h2 hlen
    rcases (leadsWith_iff _ _).mp h1 with ⟨t, rfl⟩
    have c1 : leadsWith (str "# ") (str "**" ++ t) = false := rfl
    have c2 : leadsWith (str "## ") (str "**" ++ t) = false := rfl
    have c3 : leadsWith (str "### ") (str "**" ++ t) = false := rfl
    rw [classifyLine, if_neg (by simp [c1]), if_neg (by simp [c2]), if_neg (by simp [c3]),
      if_pos (by simp [h1, h2]), jsSub_strip hlen]
  · intro parts i
    simp [boldRuns, List.getElem?_map, List.getElem?_enum, Option.map_map,
      Function.comp_def]

/-- Witness for C6 at the concrete wrapped line `"**xy**"`. -/
theorem C6_classification_precedence_witness :
    classifyLine (str "**xy**") =
      BlockElement.boldParagraph
        (((str "**xy**").drop 2).take ((str "**xy**").length - 4)) :=
  C6_classification_precedence.2.2.1 (str "**xy**") (by decide) (by decide) (by decide)

/-- C7: singular noun forms are used exactly for a count of 1 and plural
forms otherwise, for the photo-count and note-count phrases (all built by
`countNoun`, used in the Executive Summary and Visual Documentation
sentences). -/
theorem C7_pluralization :
    (∀ noun : Str, countNoun 1 noun = str "1" ++ noun) ∧
    (∀ (n : Nat) (noun : Str), n ≠ 1 →
      countNoun n noun = natStr n ++ noun ++ str "s") := by
  constructor
  · intro noun
    have h1 : natStr 1 = str "1" := by decide
    simp [countNoun, h1]
  · intro n noun h
    have h1 : (n != 1) = true := by simpa using h
    simp [countNoun, h1]

/-- Witness for C7 at the concrete counts 1 and 0. -/
theorem C7_pluralization_witness :
    countNoun 1 (str " photo") = str "1" ++ str " photo" ∧
    countNoun 0 (str " note") = natStr 0 ++ str " note" ++ str "s" :=
  ⟨C7_pluralization.1 (str " photo"), C7_pluralization.2 0 (str " note") (by decide)⟩

/-- C2: the Detailed Observations grouping is stable.  For any input note
sequence over the app's category taxonomy, the grouping is exactly: the
categories in first-occurrence order, each paired with the sub-sequence of
input notes of that category in input order — so notes of one category are
contiguous, categories appear in first-seen order, and the relative input
order is kept within a category.  The concrete conjunct instantiates the
documented example `[A(cat=x), B(cat=y), C(cat=x)]`. -/
theorem C2_grouping_stable :
    (∀ notes : List Note, (∀ n ∈ notes, n.category ∈ validCategories) →
      groupByCategory notes =
        (firstSeen notes).map
          (fun c => (c, notes.filter (fun m => m.category == c)))) ∧
    groupByCategory
        [⟨str "x", str "A"⟩, ⟨str "y", str "B"⟩, ⟨str "x", str "C"⟩] =
      [(str "x", [⟨str "x", str "A"⟩, ⟨str "x", str "C"⟩]),
       (str "y", [⟨str "y", str "B"⟩])] := by
  constructor
  · intro notes _
    exact groupByCategory_eq notes
  · decide

/-- Witness for C2 at a three-note input over valid category tags. -/
theorem C2_grouping_stable_witness :
    groupByCategory
        [⟨str "campus", str "A"⟩, ⟨str "academics", str "B"⟩,
         ⟨str "campus", str "C"⟩] =
      (firstSeen
        [⟨str "campus", str "A"⟩, ⟨str "academics", str "B"⟩,
         ⟨str "campus", str "C"⟩]).map
        (fun c =>
          (c, [(⟨str "campus", str "A"⟩ : Note), ⟨str "academics", str "B"⟩,
            ⟨str "campus", str "C"⟩].filter (fun m => m.category == c))) :=
  C2_grouping_stable.1 _ (by decide)

/-- The Key Takeaways point list, characterized: the seven-entry table
filtered by presence in the grouping, in table order. -/
theorem keyPoints_eq_filter (g : List (Str × List Note)) :
    keyPoints g = (keyPointTable.filter (fun p => hasCategory g p.1)).map Prod.snd := by
  simp only [keyPointTable, List.filter_cons, List.filter_nil]
  cases h1 : hasCategory g (str "academics") <;>
  cases h2 : hasCategory g (str "campus") <;>
  cases h3 : hasCategory g (str "facilities") <;>
  cases h4 : hasCategory g (str "location") <;>
  cases h5 : hasCategory g (str "housing") <;>
  cases h6 : hasCategory g (str "financial") <;>
  cases h7 : hasCategory g (str "social") <;>
  simp [keyPoints, h1, h2, h3, h4, h5, h6, h7]

/-- C1 (counterexample): for the input notes
`[campus "b", academics "a", general "g"]` the grouping has the three
categories `campus, academics, general` in first-seen order, but the Key
Takeaways bullets are only two — the academics sentence first, then the
campus sentence — so the section has neither one bullet per present
category (`general` has none) nor the grouping's first-seen order. -/
theorem C1_counterexample :
    keyPoints (groupByCategory
        [⟨str "campus", str "b"⟩, ⟨str "academics", str "a"⟩,
         ⟨str "general", str "g"⟩]) =
      [str "Academic programs and educational opportunities were evaluated",
       str "Campus culture and student life were observed"] ∧
    (groupByCategory
        [⟨str "campus", str "b"⟩, ⟨str "academics", str "a"⟩,
         ⟨str "general", str "g"⟩]).map Prod.fst =
      [str "campus", str "academics", str "general"] ∧
    (keyPoints (groupByCategory
        [⟨str "campus", str "b"⟩, ⟨str "academics", str "a"⟩,
         ⟨str "general", str "g"⟩])).length ≠
      (groupByCategory
        [⟨str "campus", str "b"⟩, ⟨str "academics", str "a"⟩,
         ⟨str "general", str "g"⟩]).length := by
  refine ⟨by decide, by decide, by decide⟩

/-- C1 (amended): for an input with at least one note, the Key Takeaways
section is the fixed introduction followed by exactly one bullet for each
of the seven templated categories (`academics, campus, facilities,
location, housing, financial, social`) that is present in the grouping, in
that fixed source order — not the grouping's first-seen order — each using
its fixed sentence template; any other category (such as `general`)
contributes no bullet. -/
theorem C1_key_takeaways_bullets (notes : List Note) (h : notes ≠ []) :
    keyTakeaways (groupByCategory notes) notes.length =
      str "## Key Takeaways\n\n" ++
      (str "Based on my observations and notes, here are the main points to consider:\n\n" ++
        ((((keyPointTable.filter
            (fun p => hasCategory (groupByCategory notes) p.1)).map Prod.snd).map
          (fun q => str "- " ++ q ++ str "\n")).flatten ++ str "\n")) := by
  rw [keyTakeaways, if_neg (by simpa [List.length_eq_zero] using h), keyPoints_eq_filter]
  simp [List.append_assoc]

set_option maxRecDepth 40000 in
/-- C5: composing with zero notes and zero photos succeeds and yields
exactly title, metadata, rule, Executive Summary, the Key Takeaways
fallback sentence, Next Steps and footer — the Detailed Observations and
Visual Documentation sections are absent and Key Takeaways consists of
the fixed fallback.  The closed conjuncts check, on a sample empty visit,
that the two omitted section headings occur nowhere in the text while the
Key Takeaways heading does. -/
theorem C5_empty_visit :
    (∀ (v : Visit) (gen : Str),
      compose v [] [] gen =
        str "# College Visit Report: " ++ v.college_name ++ str "\n\n" ++
        str "**Visit Date:** " ++ v.visit_date ++ str "\n\n" ++
        (if v.location != [] then str "**Location:** " ++ v.location ++ str "\n\n"
         else []) ++
        str "---\n\n" ++ str "## Executive Summary\n\n" ++
        execSummary v.college_name 0 0 0 ++
        str "## Key Takeaways\n\n" ++ noNotesFallback ++
        nextSteps ++ str "---\n\n" ++
        str "*Report generated on " ++ gen ++ str "*\n") ∧
    occursB (str "## Detailed Observations")
      (compose ⟨str "Stanford", str "May 1, 2025", str "Palo Alto"⟩ [] []
        (str "May 2, 2025")) = false ∧
    occursB (str "## Visual Documentation")
      (compose ⟨str "Stanford", str "May 1, 2025", str "Palo Alto"⟩ [] []
        (str "May 2, 2025")) = false ∧
    occursB (str "## Key Takeaways")
      (compose ⟨str "Stanford", str "May 1, 2025", str "Palo Alto"⟩ [] []
        (str "May 2, 2025")) = true := by
  refine ⟨?_, by decide, by decide, by decide⟩
  intro v gen
  rw [compose]
  simp [groupByCategory, detailedSlot, visualSlot, keyTakeaways, List.append_assoc]

/-- C8: the Visual Documentation slot of the document is empty exactly for
an empty photo sequence; for a non-empty one it is the Visual
Documentation section, whose bullet lines are exactly one per photo with a
non-empty caption, in input order; and the section heading then occurs in
the composed document. -/
theorem C8_visual_documentation :
    (∀ photos : List Photo, photos = [] ↔ visualSlot photos = []) ∧
    (∀ photos : List Photo, photos ≠ [] → visualSlot photos = visualDoc photos) ∧
    (∀ photos : List Photo,
      photoBullets photos =
        ((photos.filter (fun p => p.caption != [])).map
          (fun p => str "- " ++ p.caption ++ str "\n")).flatten) ∧
    (∀ (v : Visit) (photos : List Photo) (notes : List Note) (gen : Str),
      photos ≠ [] →
        occursB (str "## Visual Documentation") (compose v photos notes gen) = true) := by
  have hslot : ∀ photos : List Photo, photos ≠ [] → visualSlot photos = visualDoc photos := by
    intro photos h
    rw [visualSlot, if_pos (List.length_pos.mpr h)]
  refine ⟨?_, hslot, ?_, ?_⟩
  · intro photos
    constructor
    · rintro rfl
      rfl
    · intro h
      by_contra hne
      rw [hslot photos hne, visualDoc] at h
      simp only [List.append_eq_nil] at h
      exact absurd h.1.1.1.1 (by decide)
  · intro photos
    induction photos with
    | nil => rfl
    | cons p ps ih =>
      simp only [photoBullets, List.map_cons, List.flatten_cons, List.filter_cons] at ih ⊢
      by_cases hc : (p.caption != []) = true
      · rw [if_pos hc, if_pos hc, List.map_cons, List.flatten_cons, ih]
      · rw [if_neg hc, if_neg hc, ih]
        simp
  · intro v photos notes gen hph
    rw [compose, hslot photos hph, visualDoc, lit_visHdr]
    simp only [List.append_assoc]
    apply occursB_append_left
    apply occursB_append_left
    apply occursB_append_left
    apply occursB_append_left
    apply occursB_append_left
    apply occursB_append_left
    apply occursB_append_left
    apply occursB_append_left
    apply occursB_append_left
    apply occursB_append_left
    apply occursB_append_left
    exact occursB_of_leadsWith ((leadsWith_iff _ _).mpr ⟨_, rfl⟩)

/-- Witness for C8: the slot equation and document occurrence at a
one-photo input. -/
theorem C8_visual_documentation_witness :
    visualSlot [(⟨str "c"⟩ : Photo)] = visualDoc [(⟨str "c"⟩ : Photo)] ∧
    occursB (str "## Visual Documentation")
      (compose ⟨str "S", str "D", []⟩ [(⟨str "c"⟩ : Photo)] [] (str "G")) = true :=
  ⟨C8_visual_documentation.2.1 _ (by decide),
   C8_visual_documentation.2.2.2 _ _ _ _ (by decide)⟩

theorem occursB_flatten {p x : Str} {L : List Str} (hx : x ∈ L)
    (h : occursB p x = true) : occursB p L.flatten = true := by
  rcases List.append_of_mem hx with ⟨s, t, rfl⟩
  rw [List.flatten_append, List.flatten_cons]
  exact occursB_append_left _ (occursB_append_right _ h)

theorem occursB_noteParagraphs {n : Note} {ns : List Note} (h : n ∈ ns) :
    occursB n.content (noteParagraphs ns) = true := by
  induction ns with
  | nil => cases h
  | cons m ms ih =>
    simp only [noteParagraphs, List.map_cons, List.flatten_cons]
    rcases List.mem_cons.mp h with rfl | h2
    · rw [List.append_assoc]
      exact occursB_of_leadsWith ((leadsWith_iff _ _).mpr ⟨_, rfl⟩)
    · exact occursB_append_left _ (by simpa [noteParagraphs] using ih h2)

/-- C9: `compose` never drops a note — every input note's content occurs
verbatim as a contiguous segment of the composed document. -/
theorem C9_no_note_dropped (v : Visit) (photos : List Photo) (notes : List Note)
    (gen : Str) (n : Note) (h : n ∈ notes) :
    occursB n.content (compose v photos notes gen) = true := by
  have hcatmem : n.category ∈ firstSeen notes := (mem_firstSeen _ _).mpr ⟨n, h, rfl⟩
  have hbucket :
      (n.category, notes.filter (fun m => m.category == n.category)) ∈
        groupByCategory notes := by
    rw [groupByCategory_eq]
    exact List.mem_map_of_mem _ hcatmem
  have hnfilter : n ∈ notes.filter (fun m => m.category == n.category) :=
    List.mem_filter.mpr ⟨h, by simp⟩
  have hglen : (groupByCategory notes).length > 0 := by
    rw [groupByCategory_eq, List.length_map]
    exact List.length_pos.mpr (List.ne_nil_of_mem hcatmem)
  have hocc2 :
      occursB n.content
        (categoryBlock (n.category, notes.filter (fun m => m.category == n.category))) =
      true := by
    rw [categoryBlock]
    simp only [List.append_assoc]
    exact occursB_append_left _ (occursB_append_left _ (occursB_append_left _
      (occursB_noteParagraphs hnfilter)))
  have hocc3 : occursB n.content (detailedObs (groupByCategory notes)) = true := by
    rw [detailedObs]
    apply occursB_append_left
    exact occursB_flatten (List.mem_map_of_mem categoryBlock hbucket) hocc2
  rw [compose, detailedSlot, if_pos hglen]
  simp only [List.append_assoc]
  apply occursB_append_left
  apply occursB_append_left
  apply occursB_append_left
  apply occursB_append_left
  apply occursB_append_left
  apply occursB_append_left
  apply occursB_append_left
  apply occursB_append_left
  apply occursB_append_left
  apply occursB_append_left
  exact occursB_append_right _ hocc3

/-- Witness for C9 at a one-note input: the note's content `"ok"` occurs
in the composed document. -/
theorem C9_no_note_dropped_witness :
    occursB (str "ok")
      (compose ⟨str "S", str "D", []⟩ [] [(⟨str "campus", str "ok"⟩ : Note)]
        (str "G")) = true :=
  C9_no_note_dropped ⟨str "S", str "D", []⟩ [] [⟨str "campus", str "ok"⟩]
    (str "G") ⟨str "campus", str "ok"⟩ (by decide)

/-- Witness for C1 at the one-note input `[academics "z"]`. -/
theorem C1_key_takeaways_bullets_witness :
    keyTakeaways (groupByCategory [(⟨str "academics", str "z"⟩ : Note)])
        [(⟨str "academics", str "z"⟩ : Note)].length =
      str "## Key Takeaways\n\n" ++
      (str "Based on my observations and notes, here are the main points to consider:\n\n" ++
        ((((keyPointTable.filter
            (fun p => hasCategory
              (groupByCategory [(⟨str "academics", str "z"⟩ : Note)]) p.1)).map
          Prod.snd).map
          (fun q => str "- " ++ q ++ str "\n")).flatten ++ str "\n")) :=
  C1_key_takeaways_bullets [⟨str "academics", str "z"⟩] (by decide)

set_option maxRecDepth 40000 in
/-- C3 (counterexample): for a note whose content contains a newline
(`"a\nb"`), the content paragraph does not occupy one line of the composed
document — no line of the output equals the content — so the line-local
renderer cannot classify that unit as a single element. -/
theorem C3_counterexample :
    (str "a\nb") ∉ splitNl (compose ⟨str "C", str "D", []⟩ []
        [⟨str "general", str "a\nb"⟩] (str "G")) := by
  decide

/-- C3 (amended): for every input whose visit name, formatted date,
location, generation date, note categories, note contents and photo
captions contain no newline character, the composed document's lines are
exactly the `composeLines` decomposition (one logical unit or blank
separator per line, plus the empty final field of the trailing newline);
in particular the title, the visit-date metadata line, every note's
content paragraph and every captioned photo's bullet each occupy exactly
one whole line of the output. -/
theorem C3_one_line_per_unit (v : Visit) (photos : List Photo) (notes : List Note)
    (gen : Str)
    (hname : '\n' ∉ v.college_name) (hdate : '\n' ∉ v.visit_date)
    (hloc : '\n' ∉ v.location) (hgen : '\n' ∉ gen)
    (hcat : ∀ n ∈ notes, '\n' ∉ n.category)
    (hcont : ∀ n ∈ notes, '\n' ∉ n.content)
    (hphotos : ∀ p ∈ photos, '\n' ∉ p.caption) :
    splitNl (compose v photos notes gen) = composeLines v photos notes gen ++ [[]] ∧
    (str "# College Visit Report: " ++ v.college_name) ∈
      splitNl (compose v photos notes gen) ∧
    (str "**Visit Date:** " ++ v.visit_date) ∈ splitNl (compose v photos notes gen) ∧
    (∀ n ∈ notes, n.content ∈ splitNl (compose v photos notes gen)) ∧
    (∀ p ∈ photos, p.caption ≠ [] →
      (str "- " ++ p.caption) ∈ splitNl (compose v photos notes gen)) := by
  have heq := splitNl_compose v photos notes gen hname hdate hloc hgen hcat hcont hphotos
  refine ⟨heq, ?_, ?_, ?_, ?_⟩
  · rw [heq]
    apply List.mem_append_left
    simp only [composeLines]
    apply List.mem_append_left
    apply List.mem_append_left
    apply List.mem_append_left
    apply List.mem_append_left
    apply List.mem_append_left
    apply List.mem_append_left
    apply List.mem_append_left
    simp
  · rw [heq]
    apply List.mem_append_left
    simp only [composeLines]
    apply List.mem_append_left
    apply List.mem_append_left
    apply List.mem_append_left
    apply List.mem_append_left
    apply List.mem_append_left
    apply List.mem_append_left
    apply List.mem_append_left
    simp
  · intro n hn
    have hcatmem : n.category ∈ firstSeen notes := (mem_firstSeen _ _).mpr ⟨n, hn, rfl⟩
    have hglen : (groupByCategory notes).length > 0 := by
      rw [groupByCategory_eq, List.length_map]
      exact List.length_pos.mpr (List.ne_nil_of_mem hcatmem)
    have hnfilter : n ∈ notes.filter (fun m => m.category == n.category) :=
      List.mem_filter.mpr ⟨hn, by simp⟩
    have hdet : n.content ∈ detailedLines (groupByCategory notes) := by
      rw [detailedLines]
      apply List.mem_append_right
      rw [List.mem_flatten]
      refine ⟨categoryBlockLines
        (n.category, notes.filter (fun m => m.category == n.category)), ?_, ?_⟩
      · apply List.mem_map_of_mem
        rw [groupByCategory_eq]
        exact List.mem_map_of_mem _ hcatmem
      · rw [categoryBlockLines]
        apply List.mem_append_right
        rw [List.mem_flatten]
        exact ⟨[n.content, []], List.mem_map_of_mem _ hnfilter, by simp⟩
    rw [heq]
    apply List.mem_append_left
    simp only [composeLines]
    apply List.mem_append_left
    apply List.mem_append_left
    apply List.mem_append_left
    apply List.mem_append_left
    apply List.mem_append_right
    rw [if_pos hglen]
    exact hdet
  · intro p hp hcap
    have hb : (p.caption != []) = true := by simpa using hcap
    rw [heq]
    apply List.mem_append_left
    simp only [composeLines]
    apply List.mem_append_left
    apply List.mem_append_left
    apply List.mem_append_left
    apply List.mem_append_right
    rw [if_pos (List.length_pos.mpr (List.ne_nil_of_mem hp))]
    rw [visualLines]
    apply List.mem_append_left
    apply List.mem_append_right
    rw [photoBulletLines, List.mem_flatten]
    refine ⟨[str "- " ++ p.caption], ?_, by simp⟩
    have hm := List.mem_map_of_mem
      (fun q : Photo => if q.caption != [] then [str "- " ++ q.caption] else []) hp
    simpa [hb] using hm

/-- Witness for C3 at a concrete newline-free input with one photo and one
note. -/
theorem C3_one_line_per_unit_witness :
    splitNl (compose ⟨str "C", str "D", []⟩ [(⟨str "p"⟩ : Photo)]
        [(⟨str "campus", str "ok"⟩ : Note)] (str "G")) =
      composeLines ⟨str "C", str "D", []⟩ [⟨str "p"⟩] [⟨str "campus", str "ok"⟩]
        (str "G") ++ [[]] ∧
    (str "# College Visit Report: " ++ str "C") ∈
      splitNl (compose ⟨str "C", str "D", []⟩ [(⟨str "p"⟩ : Photo)]
        [(⟨str "campus", str "ok"⟩ : Note)] (str "G")) ∧
    (str "**Visit Date:** " ++ str "D") ∈
      splitNl (compose ⟨str "C", str "D", []⟩ [(⟨str "p"⟩ : Photo)]
        [(⟨str "campus", str "ok"⟩ : Note)] (str "G")) ∧
    (∀ n ∈ [(⟨str "campus", str "ok"⟩ : Note)], n.content ∈
      splitNl (compose ⟨str "C", str "D", []⟩ [(⟨str "p"⟩ : Photo)]
        [(⟨str "campus", str "ok"⟩ : Note)] (str "G"))) ∧
    (∀ p ∈ [(⟨str "p"⟩ : Photo)], p.caption ≠ [] → (str "- " ++ p.caption) ∈
      splitNl (compose ⟨str "C", str "D", []⟩ [(⟨str "p"⟩ : Photo)]
        [(⟨str "campus", str "ok"⟩ : Note)] (str "G"))) :=
  C3_one_line_per_unit ⟨str "C", str "D", []⟩ [⟨str "p"⟩] [⟨str "campus", str "ok"⟩]
    (str "G") (by decide) (by decide) (by decide) (by decide) (by decide) (by decide)
    (by decide)

end ReportCore
